/-
Verification of the routing core of react-flow-smart-edge.

The repository ships the rendering wrapper `PathFindingEdge` (in
src/SmartEdge/PathFindingEdge.tsx); the routing core it imports from
`../functions` (getBoundingBoxes, createGrid, generatePath,
gridToGraphPoint) is not part of the sources at hand, so those
definitions are modelled from the specification (sections 3, 4.1-4.4
and 7), as noted on each one.  Canvas coordinates are rationals, grid
cells are pairs of integers.
-/
import Mathlib

namespace SmartEdge

/-- A grid cell: `(col, row)` integer indices (spec section 3, GridCell). -/
abbrev Cell := ℤ × ℤ

/-- Modelled from the spec: the occupancy grid (section 3, OccupancyGrid):
a 2D boolean array, here dimensions plus the list of blocked cells. -/
structure Grid where
  width : ℕ
  height : ℕ
  blocked : List Cell
deriving DecidableEq, Repr

/-- A cell lies inside the grid rectangle. -/
def inBounds (g : Grid) (c : Cell) : Bool :=
  decide (0 ≤ c.1 ∧ c.1 < (g.width : ℤ) ∧ 0 ≤ c.2 ∧ c.2 < (g.height : ℤ))

/-- A cell can be traversed: in bounds and not marked blocked. -/
def walkable (g : Grid) (c : Cell) : Bool :=
  inBounds g c && !(decide (c ∈ g.blocked))

/-- 4-connected neighbourhood of a cell (spec section 4.3: 4-connected grid). -/
def neighbors (c : Cell) : List Cell :=
  [(c.1 + 1, c.2), (c.1 - 1, c.2), (c.1, c.2 + 1), (c.1, c.2 - 1)]

/-- Two cells are grid-adjacent (Manhattan distance one). -/
def adjacent (a b : Cell) : Bool :=
  decide ((b.1 - a.1).natAbs + (b.2 - a.2).natAbs = 1)

/-- Modelled from the spec: breadth-first search over the occupancy grid
(section 4.3).  The frontier holds candidate paths in reverse (head =
current cell); the start cell is seeded unconditionally and every
extension cell must be walkable and unvisited.  Fuel bounds the loop. -/
def bfsAux (g : Grid) (e : Cell) :
    ℕ → List (List Cell) → List Cell → Option (List Cell)
  | 0, _, _ => none
  | _ + 1, [], _ => none
  | fuel + 1, p :: frontier, visited =>
    match p with
    | [] => none
    | c :: _ =>
      if c = e then some p.reverse
      else
        let ns := (neighbors c).filter
          (fun n => walkable g n && !(decide (n ∈ visited)))
        bfsAux g e fuel (frontier ++ ns.map (fun n => n :: p)) (visited ++ ns)

/-- Modelled from the spec: the grid search entry point (section 4.3),
with enough fuel for every cell of the grid. -/
def bfs (g : Grid) (s e : Cell) : Option (List Cell) :=
  bfsAux g e (g.width * g.height + 1) [[s]] [s]

/-- Step direction between two cells, normalised to signs
(used to detect collinear runs, spec section 4.3 smoothing). -/
def dir (a b : Cell) : ℤ × ℤ :=
  ((b.1 - a.1).sign, (b.2 - a.2).sign)

/-- Modelled from the spec: smoothing worker.  `a` is the previously kept
direction anchor, `b` the current cell; a cell is dropped exactly when the
direction into it equals the direction out of it (collinear run). -/
def smoothRun (a b : Cell) : List Cell → List Cell
  | [] => [b]
  | c :: rest =>
    if dir a b = dir b c then smoothRun b c rest
    else b :: smoothRun b c rest

/-- Modelled from the spec: collapse maximal collinear runs of the full
path into their endpoints (section 4.3, smoothing). -/
def smoothPath : List Cell → List Cell
  | [] => []
  | [a] => [a]
  | a :: b :: rest => a :: smoothRun a b rest

/-- Modelled from the spec: `generatePath(grid, start, end)` (section 4.3):
search the grid, return the full cell path and its smoothed version; no
path found is represented by two empty sequences, never an exception. -/
def generatePath (g : Grid) (s e : Cell) : List Cell × List Cell :=
  match bfs g s e with
  | none => ([], [])
  | some p => (p, smoothPath p)

/-- A valid source-to-target path: nonempty, starts at `s`, ends at `e`,
consecutive cells adjacent, and every cell other than the seeded start
cell is walkable (spec section 4.3: blocked cells excluded from
traversal). -/
def ValidPath (g : Grid) (s e : Cell) (p : List Cell) : Prop :=
  p ≠ [] ∧ p.head? = some s ∧ p.getLast? = some e ∧
    List.Chain' (fun a b => adjacent a b = true) p ∧
    ∀ c ∈ p, c = s ∨ walkable g c = true

/-- Some valid path joins `s` to `e` in grid `g`. -/
def PathExists (g : Grid) (s e : Cell) : Prop :=
  ∃ p, ValidPath g s e p

/-- Invariant of the reversed candidate paths held in the search frontier:
nonempty, rooted at the start cell (its last element), adjacency-chained,
and every cell except the seeded start is walkable. -/
def RevOk (g : Grid) (s : Cell) (p : List Cell) : Prop :=
  p ≠ [] ∧ p.getLast? = some s ∧
    List.Chain' (fun a b => adjacent a b = true) p ∧
    ∀ c ∈ p, c = s ∨ walkable g c = true

theorem adjacent_comm (a b : Cell) : adjacent a b = adjacent b a := by
  simp only [adjacent, decide_eq_decide]
  omega

theorem adjacent_of_mem_neighbors {c n : Cell} (h : n ∈ neighbors c) :
    adjacent n c = true := by
  simp only [neighbors, List.mem_cons, List.mem_singleton, List.not_mem_nil,
    or_false] at h
  rcases h with h | h | h | h <;> subst h <;>
    simp only [adjacent, decide_eq_true_eq] <;> omega

theorem bfsAux_sound (g : Grid) (s e : Cell) :
    ∀ (fuel : ℕ) (frontier : List (List Cell)) (visited : List Cell)
      (r : List Cell),
      (∀ p ∈ frontier, RevOk g s p) →
      bfsAux g e fuel frontier visited = some r →
      ∃ p, RevOk g s p ∧ p.head? = some e ∧ r = p.reverse := by
  intro fuel
  induction fuel with
  | zero =>
    intro frontier visited r _ h
    simp [bfsAux] at h
  | succ n ih =>
    intro frontier visited r hinv h
    match frontier with
    | [] => simp [bfsAux] at h
    | [] :: rest => simp [bfsAux] at h
    | (c :: q) :: rest =>
      simp only [bfsAux] at h
      by_cases hce : c = e
      · rw [if_pos hce] at h
        refine ⟨c :: q, hinv (c :: q) (List.mem_cons_self _ _), ?_, ?_⟩
        · simp [hce]
        · exact (Option.some.inj h).symm
      · rw [if_neg hce] at h
        refine ih _ _ r ?_ h
        intro p' hp'
        rcases List.mem_append.mp hp' with hl | hr
        · exact hinv p' (List.mem_cons_of_mem _ hl)
        · rcases List.mem_map.mp hr with ⟨x, hx, hpx⟩
          rcases List.mem_filter.mp hx with ⟨hxn, hxw⟩
          have hwalk : walkable g x = true := by
            have := (Bool.and_eq_true _ _).mp hxw
            exact this.1
          obtain ⟨-, hlast, hchain, hmem⟩ :=
            hinv (c :: q) (List.mem_cons_self _ _)
          subst hpx
          refine ⟨List.cons_ne_nil _ _, ?_, ?_, ?_⟩
          · rw [List.getLast?_cons_cons]
            exact hlast
          · exact List.chain'_cons.mpr ⟨adjacent_of_mem_neighbors hxn, hchain⟩
          · intro y hy
            rcases List.mem_cons.mp hy with hy | hy
            · exact Or.inr (hy ▸ hwalk)
            · exact hmem y hy

theorem bfs_sound {g : Grid} {s e : Cell} {r : List Cell}
    (h : bfs g s e = some r) : ValidPath g s e r := by
  obtain ⟨p, ⟨hne, hlast, hchain, hmem⟩, hhead, hr⟩ :=
    bfsAux_sound g s e (g.width * g.height + 1) [[s]] [s] r
      (by
        intro p hp
        rcases List.mem_singleton.mp hp with rfl
        exact ⟨List.cons_ne_nil _ _, rfl, List.chain'_singleton _,
          fun c hc => Or.inl (List.mem_singleton.mp hc)⟩)
      h
  subst hr
  refine ⟨?_, ?_, ?_, ?_, ?_⟩
  · simpa [List.reverse_eq_nil_iff] using hne
  · rw [List.head?_reverse]
    exact hlast
  · rw [List.getLast?_reverse]
    exact hhead
  · refine List.chain'_reverse.mpr (hchain.imp ?_)
    intro a b hab
    show adjacent b a = true
    rw [← adjacent_comm]
    exact hab
  · intro c hc
    exact hmem c (List.mem_reverse.mp hc)

theorem getLast?_cons_of_ne_nil {α : Type} (a : α) {l : List α} (h : l ≠ []) :
    (a :: l).getLast? = l.getLast? := by
  cases l with
  | nil => exact absurd rfl h
  | cons b t => exact List.getLast?_cons_cons

theorem smoothRun_ne_nil (a b : Cell) (l : List Cell) : smoothRun a b l ≠ [] := by
  induction l generalizing a b with
  | nil => simp [smoothRun]
  | cons c rest ih =>
    simp only [smoothRun]
    split
    · exact ih b c
    · exact List.cons_ne_nil _ _

theorem smoothRun_getLast? (a b : Cell) (l : List Cell) :
    (smoothRun a b l).getLast? = (b :: l).getLast? := by
  induction l generalizing a b with
  | nil => rfl
  | cons c rest ih =>
    simp only [smoothRun]
    split
    · rw [ih b c, List.getLast?_cons_cons]
    · rw [getLast?_cons_of_ne_nil b (smoothRun_ne_nil b c rest), ih b c,
        List.getLast?_cons_cons]

theorem smoothPath_head? (p : List Cell) : (smoothPath p).head? = p.head? := by
  match p with
  | [] => rfl
  | [a] => rfl
  | a :: b :: rest => rfl

theorem smoothPath_getLast? (p : List Cell) :
    (smoothPath p).getLast? = p.getLast? := by
  match p with
  | [] => rfl
  | [a] => rfl
  | a :: b :: rest =>
    show (a :: smoothRun a b rest).getLast? = (a :: b :: rest).getLast?
    rw [getLast?_cons_of_ne_nil a (smoothRun_ne_nil a b rest),
      smoothRun_getLast?, List.getLast?_cons_cons]

theorem mem_smoothRun_of_turn {a b c : Cell} (hturn : dir a b ≠ dir b c) :
    ∀ (u : List Cell) (v : List Cell) (x y : Cell) (l : List Cell),
      y :: l = u ++ a :: b :: c :: v → b ∈ smoothRun x y l := by
  intro u
  induction u with
  | nil =>
    intro v x y l h
    simp only [List.nil_append, List.cons.injEq] at h
    obtain ⟨rfl, rfl⟩ := h
    simp only [smoothRun]
    rw [if_neg hturn]
    split
    · exact List.mem_cons_self _ _
    · exact List.mem_cons_of_mem _ (List.mem_cons_self _ _)
  | cons w u' ih =>
    intro v x y l h
    simp only [List.cons_append, List.cons.injEq] at h
    obtain ⟨rfl, hl⟩ := h
    cases l with
    | nil => exact absurd hl.symm (List.append_ne_nil_of_right_ne_nil _ (by simp))
    | cons z rest =>
      have hin : b ∈ smoothRun y z rest := ih v y z rest hl
      simp only [smoothRun]
      split
      · exact hin
      · exact List.mem_cons_of_mem _ hin

theorem smoothPath_mem_of_turn {p u v : List Cell} {a b c : Cell}
    (hp : p = u ++ a :: b :: c :: v) (hturn : dir a b ≠ dir b c) :
    b ∈ smoothPath p := by
  cases u with
  | nil =>
    subst hp
    show b ∈ a :: smoothRun a b (c :: v)
    refine List.mem_cons_of_mem _ ?_
    simp only [smoothRun, if_neg hturn]
    exact List.mem_cons_self _ _
  | cons w u' =>
    have hl : w :: (u' ++ a :: b :: c :: v) = p := by simp [hp]
    cases hq : u' ++ a :: b :: c :: v with
    | nil => exact absurd hq (List.append_ne_nil_of_right_ne_nil _ (by simp))
    | cons z rest =>
      rw [← hl, hq]
      show b ∈ w :: smoothRun w z rest
      exact List.mem_cons_of_mem _
        (mem_smoothRun_of_turn hturn u' v w z rest (by rw [← hq]))

/-- Attachment face of a connection point (spec section 3, Side). -/
inductive Side where
  | left
  | top
  | right
  | bottom
deriving DecidableEq, Repr

/-- A rectangle in canvas units (spec section 3, Rectangle). -/
structure Box where
  xMin : ℚ
  yMin : ℚ
  xMax : ℚ
  yMax : ℚ
deriving DecidableEq, Repr

/-- A diagram node: position plus size (spec section 4.1 input). -/
structure NodeM where
  x : ℚ
  y : ℚ
  width : ℚ
  height : ℚ
deriving DecidableEq, Repr

/-- A connection point: canvas coordinates plus attachment side
(source type `PointInfo`). -/
structure PointInfo where
  x : ℚ
  y : ℚ
  position : Side
deriving DecidableEq, Repr

/-- Modelled from the spec: a node's obstacle rectangle is the node
rectangle expanded by the padding on all sides (section 4.1). -/
def nodeToBox (pad : ℚ) (n : NodeM) : Box :=
  ⟨n.x - pad, n.y - pad, n.x + n.width + pad, n.y + n.height + pad⟩

/-- Modelled from the spec: union of obstacle rectangles; zero rectangles
yield a canvas bound of size 0 (section 4.1). -/
def unionBox : List Box → Box
  | [] => ⟨0, 0, 0, 0⟩
  | b :: rest =>
    rest.foldl
      (fun u o =>
        ⟨min u.xMin o.xMin, min u.yMin o.yMin,
          max u.xMax o.xMax, max u.yMax o.yMax⟩) b

/-- Modelled from the spec: round the canvas bound outward to the nearest
multiple of the grid ratio (section 4.1). -/
def roundOutward (b : Box) (gridRatio : ℚ) : Box :=
  ⟨gridRatio * ⌊b.xMin / gridRatio⌋, gridRatio * ⌊b.yMin / gridRatio⌋,
    gridRatio * ⌈b.xMax / gridRatio⌉, gridRatio * ⌈b.yMax / gridRatio⌉⟩

/-- Modelled from the spec: `getBoundingBoxes(nodes, padding, gridRatio)`
(section 4.1, called from PathFindingEdge.tsx line 85): obstacle boxes
for all nodes plus the rounded overall canvas box. -/
def getBoundingBoxes (storeNodes : List NodeM) (nodePadding gridRatio : ℚ) :
    Box × List Box :=
  let nodes := storeNodes.map (nodeToBox nodePadding)
  (roundOutward (unionBox nodes) gridRatio, nodes)

/-- Modelled from the spec: grid column count, `ceil(width / gridRatio)`
(section 4.2). -/
def gridWidth (graph : Box) (gridRatio : ℚ) : ℕ :=
  (⌈(graph.xMax - graph.xMin) / gridRatio⌉).toNat

/-- Modelled from the spec: grid row count, `ceil(height / gridRatio)`
(section 4.2). -/
def gridHeight (graph : Box) (gridRatio : ℚ) : ℕ :=
  (⌈(graph.yMax - graph.yMin) / gridRatio⌉).toNat

/-- All cells of a `w × h` grid. -/
def allCells (w h : ℕ) : List Cell :=
  (List.range w).flatMap fun x =>
    (List.range h).map fun y => ((x : ℤ), (y : ℤ))

/-- Modelled from the spec: a cell is blocked iff its canvas-space square
intersects some obstacle rectangle's interior; edge-touching does not
block (section 4.2). -/
def cellBlocked (graph : Box) (nodes : List Box) (gridRatio : ℚ)
    (c : Cell) : Bool :=
  nodes.any fun o =>
    decide (max (graph.xMin + c.1 * gridRatio) o.xMin <
        min (graph.xMin + (c.1 + 1) * gridRatio) o.xMax ∧
      max (graph.yMin + c.2 * gridRatio) o.yMin <
        min (graph.yMin + (c.2 + 1) * gridRatio) o.yMax)

/-- Modelled from the spec: the rounding that locates the grid cell of a
canvas point, `round((point - gridOrigin) / gridRatio)` per coordinate
(section 3, GridCell relationship). -/
def graphToGridPoint (p : ℚ × ℚ) (xMin yMin gridRatio : ℚ) : Cell :=
  (round ((p.1 - xMin) / gridRatio), round ((p.2 - yMin) / gridRatio))

/-- Modelled from the spec: `gridToGraphPoint(cell, xMin, yMin, gridRatio)`,
the inverse mapping from a grid cell back to canvas coordinates
(section 4.4, called from PathFindingEdge.tsx line 129). -/
def gridToGraphPoint (c : Cell) (xMin yMin gridRatio : ℚ) : ℚ × ℚ :=
  (xMin + c.1 * gridRatio, yMin + c.2 * gridRatio)

/-- Outward normal of a connection side, in grid steps (section 4.2:
search outward along the side's outward normal). -/
def sideNormal : Side → Cell
  | Side.left => (-1, 0)
  | Side.right => (1, 0)
  | Side.top => (0, -1)
  | Side.bottom => (0, 1)

/-- Modelled from the spec: bounded outward search for the first free
cell, failing once the radius is exhausted (section 4.2). -/
def nudgeToFree (g : Grid) (d : Cell) : ℕ → Cell → Option Cell
  | 0, _ => none
  | k + 1, c =>
    if walkable g c then some c
    else nudgeToFree g d k (c.1 + d.1, c.2 + d.2)

/-- Modelled from the spec: `createGrid(graph, nodes, source, target,
gridRatio)` (section 4.2, called from PathFindingEdge.tsx line 105):
discretize the canvas into an occupancy grid, mark blocked cells, and
place the start/end cells, nudging them off obstacles; `none` when a
free cell cannot be found within the bounded radius. -/
def createGrid (graph : Box) (nodes : List Box) (source target : PointInfo)
    (gridRatio : ℚ) : Option (Grid × Cell × Cell) :=
  let w := gridWidth graph gridRatio
  let h := gridHeight graph gridRatio
  let grid : Grid := ⟨w, h, (allCells w h).filter (cellBlocked graph nodes gridRatio)⟩
  let radius := w + h + 1
  let sc := graphToGridPoint (source.x, source.y) graph.xMin graph.yMin gridRatio
  let tc := graphToGridPoint (target.x, target.y) graph.xMin graph.yMin gridRatio
  match nudgeToFree grid (sideNormal source.position) radius sc,
      nudgeToFree grid (sideNormal target.position) radius tc with
  | some s, some e => some (grid, s, e)
  | _, _ => none

/-- The options record consumed by `PathFindingEdge`
(source type `SmartEdgeOptions`, PathFindingEdge.tsx lines 17-21;
the injected fallback/drawEdge/generatePath strategies of
`SmartEdgeAdvancedOptions` are modelled by the `Rendered` outcome and by
this file's `generatePath`). -/
structure SmartEdgeOptions where
  debounceTime : ℚ
  nodePadding : ℚ
  gridRatio : ℚ
deriving DecidableEq, Repr

/-- The geometry-relevant props of `PathFindingEdge`
(PathFindingEdge.tsx lines 34-53). -/
structure EdgePropsM where
  sourceX : ℚ
  sourceY : ℚ
  sourcePosition : Side
  targetX : ℚ
  targetY : ℚ
  targetPosition : Side
  storeNodes : List NodeM
deriving DecidableEq, Repr

/-- What `PathFindingEdge` renders: the plain fallback edge, or the routed
curve given by the arguments handed to the injected curve drawer
(`drawEdge(source, target, graphPath)`, PathFindingEdge.tsx line 139)
plus the canvas point used for label placement (lines 142-148). -/
inductive Rendered where
  | fallback : Rendered
  | routed (source target : PointInfo) (graphPath : List (ℚ × ℚ))
      (labelPoint : ℚ × ℚ) : Rendered
deriving DecidableEq, Repr

/-- The grid construction exactly as the caller composes it:
`getBoundingBoxes` on the store nodes feeding `createGrid`
(PathFindingEdge.tsx lines 85-111). -/
def createGridPipeline (storeNodes : List NodeM) (nodePadding gridRatio : ℚ)
    (source target : PointInfo) : Option (Grid × Cell × Cell) :=
  let gb := getBoundingBoxes storeNodes nodePadding gridRatio
  createGrid gb.1 gb.2 source target gridRatio

/-- The full routing computation: grid construction followed by path
search (PathFindingEdge.tsx lines 85-114). -/
def pathPipeline (storeNodes : List NodeM) (nodePadding gridRatio : ℚ)
    (source target : PointInfo) : Option (List Cell × List Cell) :=
  (createGridPipeline storeNodes nodePadding gridRatio source target).map
    fun gse => generatePath gse.1 gse.2.1 gse.2.2

/-- Error classification of the routing core (spec section 7). -/
inductive CoreError where
  | invalidGeometry : CoreError
  | unroutableEndpoint : CoreError
deriving DecidableEq, Repr

/-- Modelled from the spec: the routing core seen through the error
design of section 7.  The component contracts of sections 4.1-4.3
produce exactly one failure: endpoint placement exhausting its bounded
search radius (section 4.2), classified `UnroutableEndpoint` (section 7);
`getBoundingBoxes` succeeds even on zero nodes, yielding a size-0 canvas
(section 4.1), and no component contract checks for `InvalidGeometry`. -/
def routeCore (storeNodes : List NodeM) (nodePadding gridRatio : ℚ)
    (source target : PointInfo) :
    Except CoreError (List Cell × List Cell) :=
  match createGridPipeline storeNodes nodePadding gridRatio source target with
  | none => Except.error CoreError.unroutableEndpoint
  | some (g, s, e) => Except.ok (generatePath g s e)

/-- The canvas bounding box the caller computes for coordinate mapping
(PathFindingEdge.tsx line 85, field `graph`). -/
def graphBox (props : EdgePropsM) (options : SmartEdgeOptions) : Box :=
  (getBoundingBoxes props.storeNodes options.nodePadding options.gridRatio).1

/-- The rendering decision of `PathFindingEdge` (PathFindingEdge.tsx
lines 73-148): build the grid, search it, fall back when the smoothed
path has at most two cells, otherwise hand the grid-snapped waypoints to
the curve drawer together with the untouched source/target connection
points.  A failed grid construction (spec section 4.2: failed routing
attempt) leaves nothing to route, so the fallback edge is rendered. -/
def pathFindingEdge (props : EdgePropsM) (options : SmartEdgeOptions) :
    Rendered :=
  (createGridPipeline props.storeNodes options.nodePadding options.gridRatio
      ⟨props.sourceX, props.sourceY, props.sourcePosition⟩
      ⟨props.targetX, props.targetY, props.targetPosition⟩).elim
    Rendered.fallback
    (fun gse =>
      if (generatePath gse.1 gse.2.1 gse.2.2).2.length ≤ 2 then
        Rendered.fallback
      else
        Rendered.routed ⟨props.sourceX, props.sourceY, props.sourcePosition⟩
          ⟨props.targetX, props.targetY, props.targetPosition⟩
          ((generatePath gse.1 gse.2.1 gse.2.2).2.map fun gridPoint =>
            gridToGraphPoint gridPoint (graphBox props options).xMin
              (graphBox props options).yMin options.gridRatio)
          (gridToGraphPoint
            ((generatePath gse.1 gse.2.1 gse.2.2).1.getD
              ((generatePath gse.1 gse.2.1 gse.2.2).1.length / 2) (0, 0))
            (graphBox props options).xMin (graphBox props options).yMin
            options.gridRatio))

/-- Sample scene: two nodes with a connection from the right face of the
first to the left face of the second, offset both horizontally and
vertically so the routed path must turn. -/
def sampleProps : EdgePropsM :=
  ⟨10, 5, Side.right, 60, 35, Side.left, [⟨0, 0, 10, 10⟩, ⟨60, 30, 10, 10⟩]⟩

/-- Sample options: default debounce, padding 2, grid ratio 10. -/
def sampleOpts : SmartEdgeOptions := ⟨200, 2, 10⟩

/-- The grid the sample scene discretizes to. -/
def sampleGrid : Grid :=
  ⟨9, 6,
    [(0, 0), (0, 1), (0, 2), (1, 0), (1, 1), (1, 2), (2, 0), (2, 1), (2, 2),
      (6, 3), (6, 4), (6, 5), (7, 3), (7, 4), (7, 5), (8, 3), (8, 4), (8, 5)]⟩

theorem mem_of_getLast?_eq {α : Type} {l : List α} {a : α}
    (h : l.getLast? = some a) : a ∈ l := by
  obtain ⟨hne, heq⟩ := List.mem_getLast?_eq_getLast (Option.mem_def.mpr h)
  exact heq ▸ List.getLast_mem hne

/-- A target cell that is distinct from the start and not walkable admits
no valid path, since every valid path ends at its target. -/
theorem not_pathExists_of_unwalkable_end {g : Grid} {s e : Cell}
    (hne : s ≠ e) (hw : walkable g e = false) : ¬ PathExists g s e := by
  rintro ⟨p, -, -, hlast, -, hmem⟩
  rcases hmem e (mem_of_getLast?_eq hlast) with h | h
  · exact hne h.symm
  · rw [hw] at h
    cases h

/-- C2: when no path from start to end exists, `generatePath` returns two
empty sequences; being a total function, it raises nothing for this
condition. -/
theorem claim2_no_path_empty_sequences (g : Grid) (s e : Cell)
    (h : ¬ PathExists g s e) : generatePath g s e = ([], []) := by
  unfold generatePath
  cases hb : bfs g s e with
  | none => rfl
  | some p => exact absurd ⟨p, bfs_sound hb⟩ h

theorem claim2_witness :
    ¬ PathExists ⟨2, 1, [((1 : ℤ), (0 : ℤ))]⟩ (0, 0) (1, 0) ∧
      generatePath ⟨2, 1, [((1 : ℤ), (0 : ℤ))]⟩ (0, 0) (1, 0) = ([], []) := by
  have hnp : ¬ PathExists ⟨2, 1, [((1 : ℤ), (0 : ℤ))]⟩ (0, 0) (1, 0) :=
    not_pathExists_of_unwalkable_end (by decide) (by decide)
  exact ⟨hnp, claim2_no_path_empty_sequences _ _ _ hnp⟩

/-- C3: searching from a cell to itself yields that single cell as both
the full and the smoothed path, each of length one. -/
theorem claim3_start_eq_end_singleton (g : Grid) (s : Cell) :
    generatePath g s s = ([s], [s]) := by
  simp [generatePath, bfs, bfsAux, smoothPath]

/-- C5 counterexample: with start = end on a blocked cell the spec's
start-equals-end rule (section 4.3) forces `fullPath = [start]`, which
contains a blocked cell, so not every returned cell is unblocked. -/
theorem claim5_counterexample :
    generatePath ⟨1, 1, [((0 : ℤ), (0 : ℤ))]⟩ (0, 0) (0, 0) =
        ([(0, 0)], [(0, 0)]) ∧
      ((0 : ℤ), (0 : ℤ)) ∈ Grid.blocked ⟨1, 1, [((0 : ℤ), (0 : ℤ))]⟩ :=
  ⟨by decide, by decide⟩

/-- C5 amended: every pair of consecutive cells of `fullPath` is
grid-adjacent, and provided the start cell is walkable (which createGrid's
nudging guarantees in the pipeline), no cell of `fullPath` is blocked. -/
theorem claim5_amended_path_validity (g : Grid) (s e : Cell)
    (full sm : List Cell) (h : generatePath g s e = (full, sm)) :
    List.Chain' (fun a b => adjacent a b = true) full ∧
      (walkable g s = true → ∀ c ∈ full, walkable g c = true) := by
  unfold generatePath at h
  cases hb : bfs g s e with
  | none =>
    rw [hb] at h
    cases h
    exact ⟨List.chain'_nil, fun _ c hc => absurd hc (List.not_mem_nil c)⟩
  | some p =>
    rw [hb] at h
    cases h
    obtain ⟨-, -, -, hchain, hmem⟩ := bfs_sound hb
    exact ⟨hchain, fun hs c hc => (hmem c hc).elim (fun hcs => hcs ▸ hs) id⟩

theorem claim5_witness :
    List.Chain' (fun a b => adjacent a b = true)
        [((0 : ℤ), (0 : ℤ)), (1, 0), (1, 1)] ∧
      (walkable ⟨2, 2, []⟩ (0, 0) = true →
        ∀ c ∈ [((0 : ℤ), (0 : ℤ)), (1, 0), (1, 1)],
          walkable ⟨2, 2, []⟩ c = true) :=
  claim5_amended_path_validity ⟨2, 2, []⟩ (0, 0) (1, 1)
    [((0 : ℤ), (0 : ℤ)), (1, 0), (1, 1)] [((0 : ℤ), (0 : ℤ)), (1, 0), (1, 1)]
    (by decide)

/-- C9: whenever the smoothed path has length at least three (the routed
branch), the full path is nonempty and the label index
`floor(fullPath.length / 2)` is in bounds. -/
theorem claim9_label_index_in_bounds (g : Grid) (s e : Cell)
    (h : 3 ≤ (generatePath g s e).2.length) :
    (generatePath g s e).1 ≠ [] ∧
      (generatePath g s e).1.length / 2 < (generatePath g s e).1.length := by
  cases hb : bfs g s e with
  | none =>
    rw [generatePath, hb] at h
    simp at h
  | some p =>
    have hp : generatePath g s e = (p, smoothPath p) := by rw [generatePath, hb]
    rw [hp] at h ⊢
    have hpne : p ≠ [] := by
      intro hnil
      rw [hnil] at h
      simp [smoothPath] at h
    exact ⟨hpne, Nat.div_lt_self (List.length_pos.mpr hpne) (by norm_num)⟩

theorem claim9_witness :
    (generatePath ⟨2, 2, []⟩ (0, 0) (1, 1)).1 ≠ [] ∧
      (generatePath ⟨2, 2, []⟩ (0, 0) (1, 1)).1.length / 2 <
        (generatePath ⟨2, 2, []⟩ (0, 0) (1, 1)).1.length :=
  claim9_label_index_in_bounds _ _ _ (by decide)

/-- C4: the smoothed path returned with a nonempty full path keeps the
full path's first and last cells exactly, and keeps every turn point:
any cell of the full path whose incoming and outgoing directions differ
is a member of the smoothed path. -/
theorem claim4_smoothing_preserves_endpoints_and_turns
    (g : Grid) (s e : Cell) (full sm : List Cell)
    (h : generatePath g s e = (full, sm)) (hne : full ≠ []) :
    sm.head? = full.head? ∧ sm.getLast? = full.getLast? ∧
      ∀ (u v : List Cell) (a b c : Cell),
        full = u ++ a :: b :: c :: v → dir a b ≠ dir b c → b ∈ sm := by
  have hsm : sm = smoothPath full := by
    unfold generatePath at h
    cases hb : bfs g s e with
    | none =>
      rw [hb] at h
      cases h
      rfl
    | some p =>
      rw [hb] at h
      cases h
      rfl
  subst hsm
  exact ⟨smoothPath_head? full, smoothPath_getLast? full,
    fun u v a b c hp ht => smoothPath_mem_of_turn hp ht⟩

theorem claim4_witness :
    ([((0 : ℤ), (0 : ℤ)), (2, 0), (2, 2)] : List Cell).head? =
        ([((0 : ℤ), (0 : ℤ)), (1, 0), (2, 0), (2, 1), (2, 2)] : List Cell).head? ∧
      ([((0 : ℤ), (0 : ℤ)), (2, 0), (2, 2)] : List Cell).getLast? =
        ([((0 : ℤ), (0 : ℤ)), (1, 0), (2, 0), (2, 1), (2, 2)] :
          List Cell).getLast? ∧
      ∀ (u v : List Cell) (a b c : Cell),
        ([((0 : ℤ), (0 : ℤ)), (1, 0), (2, 0), (2, 1), (2, 2)] : List Cell) =
            u ++ a :: b :: c :: v →
          dir a b ≠ dir b c →
            b ∈ ([((0 : ℤ), (0 : ℤ)), (2, 0), (2, 2)] : List Cell) :=
  claim4_smoothing_preserves_endpoints_and_turns ⟨3, 3, []⟩ (0, 0) (2, 2)
    [((0 : ℤ), (0 : ℤ)), (1, 0), (2, 0), (2, 1), (2, 2)]
    [((0 : ℤ), (0 : ℤ)), (2, 0), (2, 2)]
    (by decide) (by decide)

/-- Rounding a canvas coordinate to the grid pitch and mapping it back
lands within half a grid pitch of the original coordinate. -/
theorem round_to_grid_error_le (x o r : ℚ) (h : 0 < r) :
    |o + (round ((x - o) / r) : ℚ) * r - x| ≤ r / 2 := by
  have hr0 : r ≠ 0 := ne_of_gt h
  have ht : (x - o) / r * r = x - o := div_mul_cancel₀ _ hr0
  have h1 : o + (round ((x - o) / r) : ℚ) * r - x
      = ((round ((x - o) / r) : ℚ) - (x - o) / r) * r := by
    rw [sub_mul, ht]
    ring
  rw [h1, abs_mul, abs_of_pos h]
  have h2 : |((round ((x - o) / r) : ℚ)) - (x - o) / r| ≤ 1 / 2 := by
    rw [abs_sub_comm]
    exact abs_sub_round _
  calc |((round ((x - o) / r) : ℚ)) - (x - o) / r| * r
      ≤ 1 / 2 * r := mul_le_mul_of_nonneg_right h2 (le_of_lt h)
    _ = r / 2 := by ring

/-- C6: the coordinate mapping round-trips.  Cell to point to cell is the
identity; point to cell to point moves each coordinate by at most half a
grid ratio. -/
theorem claim6_roundtrip (xMin yMin gridRatio : ℚ) (h : 0 < gridRatio) :
    (∀ c : Cell,
        graphToGridPoint (gridToGraphPoint c xMin yMin gridRatio)
          xMin yMin gridRatio = c) ∧
      ∀ p : ℚ × ℚ,
        |(gridToGraphPoint (graphToGridPoint p xMin yMin gridRatio)
            xMin yMin gridRatio).1 - p.1| ≤ gridRatio / 2 ∧
        |(gridToGraphPoint (graphToGridPoint p xMin yMin gridRatio)
            xMin yMin gridRatio).2 - p.2| ≤ gridRatio / 2 := by
  have hr0 : gridRatio ≠ 0 := ne_of_gt h
  constructor
  · intro c
    simp only [gridToGraphPoint, graphToGridPoint, add_sub_cancel_left,
      mul_div_cancel_right₀ _ hr0, round_intCast]
  · intro p
    exact ⟨round_to_grid_error_le p.1 xMin gridRatio h,
      round_to_grid_error_le p.2 yMin gridRatio h⟩

theorem claim6_witness :
    graphToGridPoint (gridToGraphPoint (3, -4) 0 0 10) 0 0 10 = (3, -4) ∧
      |(gridToGraphPoint (graphToGridPoint (7, 12) 0 0 10) 0 0 10).1 - 7| ≤
          10 / 2 ∧
        |(gridToGraphPoint (graphToGridPoint (7, 12) 0 0 10) 0 0 10).2 - 12| ≤
          10 / 2 :=
  ⟨(claim6_roundtrip 0 0 10 (by norm_num)).1 (3, -4),
    (claim6_roundtrip 0 0 10 (by norm_num)).2 (7, 12)⟩

/-- C7: the routing computation is a pure function of its inputs, so two
calls with identical nodes, options and endpoints produce identical
grids, start/end cells, and identical full/smoothed paths. -/
theorem claim7_deterministic
    (nodesA nodesB : List NodeM) (padA padB ratioA ratioB : ℚ)
    (srcA srcB tgtA tgtB : PointInfo)
    (hn : nodesA = nodesB) (hp : padA = padB) (hr : ratioA = ratioB)
    (hs : srcA = srcB) (ht : tgtA = tgtB) :
    createGridPipeline nodesA padA ratioA srcA tgtA =
        createGridPipeline nodesB padB ratioB srcB tgtB ∧
      pathPipeline nodesA padA ratioA srcA tgtA =
        pathPipeline nodesB padB ratioB srcB tgtB := by
  subst hn
  subst hp
  subst hr
  subst hs
  subst ht
  exact ⟨rfl, rfl⟩

theorem claim7_witness :
    createGridPipeline [⟨0, 0, 10, 10⟩] 2 10 ⟨10, 5, Side.right⟩
        ⟨0, 5, Side.left⟩ =
      createGridPipeline [⟨0, 0, 10, 10⟩] 2 10 ⟨10, 5, Side.right⟩
        ⟨0, 5, Side.left⟩ ∧
      pathPipeline [⟨0, 0, 10, 10⟩] 2 10 ⟨10, 5, Side.right⟩
        ⟨0, 5, Side.left⟩ =
      pathPipeline [⟨0, 0, 10, 10⟩] 2 10 ⟨10, 5, Side.right⟩
        ⟨0, 5, Side.left⟩ :=
  claim7_deterministic _ _ _ _ _ _ _ _ _ _ rfl rfl rfl rfl rfl

/-- On a zero-size grid no cell is walkable. -/
theorem walkable_zero_grid (bl : List Cell) (c : Cell) :
    walkable ⟨0, 0, bl⟩ c = false := by
  have hib : inBounds ⟨0, 0, bl⟩ c = false := by
    simp only [inBounds, decide_eq_false_iff_not]
    push_cast
    omega
  rw [walkable, hib, Bool.false_and]

/-- Zero nodes yield an empty obstacle list and a size-0 canvas bound
(spec section 4.1). -/
theorem getBoundingBoxes_nil (nodePadding gridRatio : ℚ) :
    getBoundingBoxes [] nodePadding gridRatio = (⟨0, 0, 0, 0⟩, []) := by
  simp [getBoundingBoxes, unionBox, roundOutward]

/-- On a grid with no cells the outward nudge never finds a free cell. -/
theorem nudgeToFree_zero_grid (d : Cell) (k : ℕ) (c : Cell) :
    nudgeToFree ⟨0, 0, []⟩ d k c = none := by
  induction k generalizing c with
  | zero => rfl
  | succ n ih =>
    simp only [nudgeToFree, walkable_zero_grid, Bool.false_eq_true, if_false]
    exact ih _

/-- On the size-0 canvas the grid has no cells, so endpoint placement
fails within its bounded radius. -/
theorem createGrid_zero_box (source target : PointInfo) (gridRatio : ℚ) :
    createGrid ⟨0, 0, 0, 0⟩ [] source target gridRatio = none := by
  have hw : gridWidth ⟨0, 0, 0, 0⟩ gridRatio = 0 := by
    simp [gridWidth]
  have hh : gridHeight ⟨0, 0, 0, 0⟩ gridRatio = 0 := by
    simp [gridHeight]
  unfold createGrid
  simp only [hw, hh, allCells, List.range_zero, List.flatMap_nil,
    List.filter_nil, nudgeToFree_zero_grid]

/-- C8 counterexample: the degenerate zero-node input (a zero-size
canvas) does not surface as an `InvalidGeometry` failure. -/
theorem claim8_counterexample :
    routeCore [] 5 10 ⟨0, 0, Side.right⟩ ⟨0, 0, Side.left⟩ ≠
      Except.error CoreError.invalidGeometry := by
  intro h
  have heq : routeCore [] 5 10 ⟨0, 0, Side.right⟩ ⟨0, 0, Side.left⟩ =
      Except.error CoreError.unroutableEndpoint := by
    with_unfolding_all rfl
  rw [heq] at h
  exact absurd (Except.error.inj h) (by decide)

/-- C8 amended: zero-node (zero-size canvas) input is not classified
`InvalidGeometry`: per spec section 4.1 `getBoundingBoxes` succeeds with
an empty obstacle list and a size-0 canvas, and routing then fails to
place its endpoints, surfacing as `UnroutableEndpoint` — interpreted by
the caller as no-path/fallback, never as an `InvalidGeometry` error. -/
theorem claim8_amended_zero_nodes_no_invalid_geometry
    (nodePadding gridRatio : ℚ) (source target : PointInfo) :
    getBoundingBoxes [] nodePadding gridRatio = (⟨0, 0, 0, 0⟩, []) ∧
      routeCore [] nodePadding gridRatio source target =
        Except.error CoreError.unroutableEndpoint := by
  refine ⟨getBoundingBoxes_nil _ _, ?_⟩
  unfold routeCore createGridPipeline
  rw [getBoundingBoxes_nil]
  simp [createGrid_zero_box]

/-- C1: whenever grid construction succeeds, `PathFindingEdge` renders
the fallback edge exactly when the smoothed path has length at most two;
the decision reads nothing but the returned sequence length. -/
theorem claim1_fallback_iff_short_smoothed_path
    (props : EdgePropsM) (options : SmartEdgeOptions)
    (grid : Grid) (s e : Cell)
    (h : createGridPipeline props.storeNodes options.nodePadding
        options.gridRatio ⟨props.sourceX, props.sourceY, props.sourcePosition⟩
        ⟨props.targetX, props.targetY, props.targetPosition⟩ =
      some (grid, s, e)) :
    (pathFindingEdge props options = Rendered.fallback ↔
      (generatePath grid s e).2.length ≤ 2) := by
  unfold pathFindingEdge
  rw [h]
  by_cases hlen : (generatePath grid s e).2.length ≤ 2
  · simp [hlen]
  · simp [hlen]

set_option maxHeartbeats 1600000 in
theorem claim1_witness :
    (pathFindingEdge sampleProps sampleOpts = Rendered.fallback ↔
      (generatePath sampleGrid (3, 2) (5, 5)).2.length ≤ 2) :=
  claim1_fallback_iff_short_smoothed_path sampleProps sampleOpts sampleGrid
    (3, 2) (5, 5) (by with_unfolding_all decide)

/-- C10: in the routed branch, the curve drawer receives the source and
target connection points exactly as given in the props; only the
intermediate waypoints are grid-snapped. -/
theorem claim10_drawEdge_endpoints_unchanged
    (props : EdgePropsM) (options : SmartEdgeOptions)
    (src tgt : PointInfo) (graphPath : List (ℚ × ℚ)) (labelPoint : ℚ × ℚ)
    (h : pathFindingEdge props options =
      Rendered.routed src tgt graphPath labelPoint) :
    src = ⟨props.sourceX, props.sourceY, props.sourcePosition⟩ ∧
      tgt = ⟨props.targetX, props.targetY, props.targetPosition⟩ := by
  unfold pathFindingEdge at h
  cases hcg : createGridPipeline props.storeNodes options.nodePadding
      options.gridRatio ⟨props.sourceX, props.sourceY, props.sourcePosition⟩
      ⟨props.targetX, props.targetY, props.targetPosition⟩ with
  | none =>
    rw [hcg, Option.elim_none] at h
    exact Rendered.noConfusion h
  | some gse =>
    rw [hcg, Option.elim_some] at h
    by_cases hlen : (generatePath gse.1 gse.2.1 gse.2.2).2.length ≤ 2
    · rw [if_pos hlen] at h
      exact Rendered.noConfusion h
    · rw [if_neg hlen] at h
      injection h with h1 h2 h3 h4
      exact ⟨h1.symm, h2.symm⟩

set_option maxHeartbeats 1600000 in
theorem claim10_witness :
    (⟨10, 5, Side.right⟩ : PointInfo) =
        ⟨sampleProps.sourceX, sampleProps.sourceY, sampleProps.sourcePosition⟩ ∧
      (⟨60, 35, Side.left⟩ : PointInfo) =
        ⟨sampleProps.targetX, sampleProps.targetY, sampleProps.targetPosition⟩ :=
  claim10_drawEdge_endpoints_unchanged sampleProps sampleOpts
    ⟨10, 5, Side.right⟩ ⟨60, 35, Side.left⟩
    [(20, 10), (40, 10), (40, 40)] (40, 20)
    (by with_unfolding_all decide)

end SmartEdge
